import Mathlib

/-!
Verification development for the orrery observer/observable module
(src/orrery/observable.py).

The Python code is shallowly embedded:

* Python objects are identified by `Obj := Nat`; garbage collection is
  modelled by a liveness map `live : Obj → Bool` (a weak reference to `o`
  is dead exactly when `live o = false`).
* A bound method is a pair of its owner (`__self__`) and a method tag;
  a plain function (no `__self__`) is the other `Callable` constructor.
* `weakref.WeakKeyDictionary` / Python dicts are insertion-ordered
  association lists; `.values()` iteration over a `WeakKeyDictionary`
  yields only entries whose key is still live, without erasing the dead
  ones (erasure is the weak-reference mechanism, modelled by `prune`).
* Keyword-argument dicts are association lists `Kwargs`; the call
  `f(**event_args, **kwargs)` raises `TypeError` when the two share a
  key, otherwise passes their concatenation.
* Exceptions are the `PyError` type; a mutating method returns its new
  state paired with an optional error (state changes made before the
  raise persist, as in Python).
* What a callback does when invoked is a parameter
  `beh : Invocation → Except PyError Unit`; `notify` produces the trace
  of invocations it performed together with the first propagated error.
-/

/-- Python object identity. -/
abbrev Obj := Nat

/-- Keyword-argument name. -/
abbrev Key := String

/-- Keyword-argument value. -/
abbrev Val := Nat

/-- A keyword-argument dict, insertion ordered. -/
abbrev Kwargs := List (Key × Val)

/-- Event identifier: `class Event(str)` — a string compared by value. -/
abbrev Event := String

/-- The exceptions the embedded code can raise or propagate. -/
inductive PyError where
  | runtimeError (msg : String)
  | typeError
  | attributeError (attr : String)
  | callbackError (code : Nat)
deriving Repr, DecidableEq

/-- A bound method: its owner object (`__self__`) and a method tag. -/
structure BoundMethod where
  self : Obj
  method : Nat
deriving Repr, DecidableEq

/-- A Python callable as seen by `add_observer`: a bound method, or a
plain callable with no `__self__` attribute. -/
inductive Callable where
  | bound (m : BoundMethod)
  | plain (f : Nat)
deriving Repr, DecidableEq

/-- One performed callback invocation: the receiver object, the method
tag, and the keyword arguments it was called with. -/
structure Invocation where
  target : Obj
  method : Nat
  args : Kwargs
deriving Repr, DecidableEq

/-- `CallbackArgs = namedtuple('CallbackArgs', ['callback', 'kwargs'])`:
the stored weak method and the registration-time kwargs. -/
structure CallbackArgs where
  callback : BoundMethod
  kwargs : Kwargs
deriving Repr, DecidableEq

/-- Insertion-ordered dict update, as Python `d[k] = v`: replace the
value at an existing key in place, otherwise append at the end. -/
def dictInsert {α β : Type} [DecidableEq α] (k : α) (v : β) :
    List (α × β) → List (α × β)
  | [] => [(k, v)]
  | p :: rest => if p.1 = k then (k, v) :: rest else p :: dictInsert k v rest

/-- Dict lookup, as Python `d[k]` / `k in d`. -/
def dictLookup {α β : Type} [DecidableEq α] (k : α) :
    List (α × β) → Option β
  | [] => none
  | p :: rest => if p.1 = k then some p.2 else dictLookup k rest

/-- Dict deletion, as Python `del d[k]` (removes the entry at `k`). -/
def dictErase {α β : Type} [DecidableEq α] (k : α) :
    List (α × β) → List (α × β)
  | [] => []
  | p :: rest => if p.1 = k then rest else p :: dictErase k rest

/-- `self._observers`: a `WeakKeyDictionary` from owner object to
`CallbackArgs`. -/
structure ObserverList where
  observers : List (Obj × CallbackArgs)
deriving Repr, DecidableEq

/-- Dereference a `weakref.WeakMethod`: yields the bound method while
its `__self__` is alive, otherwise `None`. -/
def derefWeakMethod (live : Obj → Bool) (m : BoundMethod) : Option BoundMethod :=
  if live m.self then some m else none

/-- The weak-reference mechanism of the `WeakKeyDictionary`: entries
whose key object has died disappear from the dictionary. -/
def ObserverList.prune (live : Obj → Bool) (ol : ObserverList) : ObserverList :=
  ⟨ol.observers.filter (fun p => live p.1)⟩

/-- Whether two kwarg dicts share no key (`f(**a, **b)` succeeds). -/
def keysDisjoint (a b : Kwargs) : Bool :=
  a.all (fun p => !(b.any (fun q => q.1 = p.1)))

/-- The argument assembly of `callback(**event_args, **kwargs)`: raises
`TypeError` on a duplicate keyword, otherwise passes both. -/
def mergeKwargs (eventArgs kwargs : Kwargs) : Except PyError Kwargs :=
  if keysDisjoint eventArgs kwargs then .ok (eventArgs ++ kwargs)
  else .error .typeError

/-- `ObserverList.add_observer(callback, **kwargs)`: reads
`callback.__self__` (an `AttributeError` for a plain callable), stores
the weak method and kwargs under the owner key, returns the owner as the
callback id. Returns the (possibly unchanged) state and the result. -/
def ObserverList.add_observer (ol : ObserverList) (callback : Callable)
    (kwargs : Kwargs) : ObserverList × Except PyError Obj :=
  match callback with
  | .plain _ => (ol, .error (.attributeError "__self__"))
  | .bound m =>
      (⟨dictInsert m.self ⟨m, kwargs⟩ ol.observers⟩, .ok m.self)

/-- `ObserverList.remove_observer(callback_id)`: raises
`RuntimeError('Unknown callback ID')` when the id is not a key,
otherwise deletes the entry. -/
def ObserverList.remove_observer (ol : ObserverList) (callback_id : Obj) :
    ObserverList × Option PyError :=
  match dictLookup callback_id ol.observers with
  | none => (ol, some (.runtimeError "Unknown callback ID"))
  | some _ => (⟨dictErase callback_id ol.observers⟩, none)

/-- The loop of `ObserverList.notify`: iterate the dictionary values
(the `WeakKeyDictionary` yields only live-keyed entries and does not
erase dead ones), dereference the weak method, build the argument dict,
invoke. Returns the invocation trace and the first error propagated,
which aborts the remaining iterations. -/
def notifyAux (live : Obj → Bool) (beh : Invocation → Except PyError Unit) :
    List (Obj × CallbackArgs) → Kwargs → List Invocation × Option PyError
  | [], _ => ([], none)
  | p :: rest, eventArgs =>
      if live p.1 then
        match derefWeakMethod live p.2.callback with
        | none => ([], some .typeError)
        | some m =>
            match mergeKwargs eventArgs p.2.kwargs with
            | .error e => ([], some e)
            | .ok args =>
                match beh ⟨m.self, m.method, args⟩ with
                | .error e => ([⟨m.self, m.method, args⟩], some e)
                | .ok _ =>
                    let r := notifyAux live beh rest eventArgs
                    (⟨m.self, m.method, args⟩ :: r.1, r.2)
      else notifyAux live beh rest eventArgs

/-- `ObserverList.notify(**event_args)`. -/
def ObserverList.notify (live : Obj → Bool)
    (beh : Invocation → Except PyError Unit) (ol : ObserverList)
    (eventArgs : Kwargs) : List Invocation × Option PyError :=
  notifyAux live beh ol.observers eventArgs

/-- `self._observer_lists`: the per-event dictionary of an Observable. -/
structure Observable where
  observer_lists : List (Event × ObserverList)
deriving Repr, DecidableEq

/-- Lookup of an event's `ObserverList`, no creation. -/
def Observable.lookupList (ob : Observable) (event : Event) :
    Option ObserverList :=
  dictLookup event ob.observer_lists

/-- `Observable._get_observer_list(event)`: return the event's list,
creating and caching an empty one on first use. -/
def Observable.getObserverList (ob : Observable) (event : Event) :
    ObserverList × Observable :=
  match dictLookup event ob.observer_lists with
  | some ol => (ol, ob)
  | none =>
      (⟨[]⟩, ⟨dictInsert event ⟨[]⟩ ob.observer_lists⟩)

/-- Write back the (mutated) `ObserverList` of an event. -/
def Observable.setList (ob : Observable) (event : Event)
    (ol : ObserverList) : Observable :=
  ⟨dictInsert event ol ob.observer_lists⟩

/-- `Observable.add_observer(event, callback, **kwargs)`. -/
def Observable.add_observer (ob : Observable) (event : Event)
    (callback : Callable) (kwargs : Kwargs) :
    Observable × Except PyError Obj :=
  let r := ob.getObserverList event
  let s := r.1.add_observer callback kwargs
  (r.2.setList event s.1, s.2)

/-- `Observable.remove_observer(event, callback_id)`. -/
def Observable.remove_observer (ob : Observable) (event : Event)
    (callback_id : Obj) : Observable × Option PyError :=
  let r := ob.getObserverList event
  let s := r.1.remove_observer callback_id
  (r.2.setList event s.1, s.2)

/-- `Observable.notify(event, **event_args)`. -/
def Observable.notify (live : Obj → Bool)
    (beh : Invocation → Except PyError Unit) (ob : Observable)
    (event : Event) (eventArgs : Kwargs) :
    Observable × List Invocation × Option PyError :=
  let r := ob.getObserverList event
  (r.2.setList event r.1, r.1.notify live beh eventArgs)

/-- Structural invariant of `ObserverList`: every entry is keyed by the
`__self__` of the method it stores (`add_observer` keys by
`callback.__self__`). -/
def ObserverList.WF (ol : ObserverList) : Prop :=
  ∀ p ∈ ol.observers, p.2.callback.self = p.1

instance (ol : ObserverList) : Decidable ol.WF := by
  unfold ObserverList.WF; infer_instance

/-- Keys of an association list occur at most once (true of every state
generated by dict operations from the empty dict). -/
def dictKeysNodup {α β : Type} (l : List (α × β)) : Prop :=
  (l.map Prod.fst).Nodup

/-- The invocation `notify` performs for a registration entry. -/
def invOf (eventArgs : Kwargs) (p : Obj × CallbackArgs) : Invocation :=
  ⟨p.2.callback.self, p.2.callback.method, eventArgs ++ p.2.kwargs⟩

/-! ### Dictionary lemmas -/

theorem dictLookup_dictInsert_self {α β : Type} [DecidableEq α] (k : α) (v : β)
    (l : List (α × β)) : dictLookup k (dictInsert k v l) = some v := by
  induction l with
  | nil => simp [dictInsert, dictLookup]
  | cons p rest ih =>
      by_cases h : p.1 = k <;> simp [dictInsert, dictLookup, h, ih]

theorem dictLookup_dictInsert_ne {α β : Type} [DecidableEq α] (k a : α) (v : β)
    (l : List (α × β)) (h : k ≠ a) :
    dictLookup a (dictInsert k v l) = dictLookup a l := by
  induction l with
  | nil => simp [dictInsert, dictLookup, h]
  | cons p rest ih =>
      by_cases hp : p.1 = k
      · simp [dictInsert, dictLookup, hp, h]
      · simp [dictInsert, dictLookup, hp, ih]

theorem dictInsert_lookup_eq {α β : Type} [DecidableEq α] (k : α) (v : β)
    (l : List (α × β)) (h : dictLookup k l = some v) : dictInsert k v l = l := by
  induction l with
  | nil => simp [dictLookup] at h
  | cons p rest ih =>
      obtain ⟨p1, p2⟩ := p
      by_cases hp : p1 = k
      · subst hp
        simp [dictLookup] at h
        simp [dictInsert, h]
      · simp [dictLookup, hp] at h
        simp [dictInsert, hp, ih h]

theorem dictInsert_dictInsert_self {α β : Type} [DecidableEq α] (k : α) (v w : β)
    (l : List (α × β)) : dictInsert k w (dictInsert k v l) = dictInsert k w l := by
  induction l with
  | nil => simp [dictInsert]
  | cons p rest ih =>
      by_cases hp : p.1 = k
      · simp [dictInsert, hp]
      · simp [dictInsert, hp, ih]

theorem mem_dictInsert {α β : Type} [DecidableEq α] {p : α × β} (k : α) (v : β)
    (l : List (α × β)) (h : p ∈ dictInsert k v l) : p = (k, v) ∨ p ∈ l := by
  induction l with
  | nil => simp [dictInsert] at h; exact Or.inl h
  | cons q rest ih =>
      by_cases hq : q.1 = k
      · simp only [dictInsert, hq, if_true, List.mem_cons] at h
        rcases h with h | h
        · exact Or.inl h
        · exact Or.inr (List.mem_cons_of_mem q h)
      · simp only [dictInsert, hq, if_false, List.mem_cons] at h
        rcases h with h | h
        · exact Or.inr (h ▸ List.mem_cons_self q rest)
        · rcases ih h with h2 | h2
          · exact Or.inl h2
          · exact Or.inr (List.mem_cons_of_mem q h2)

theorem mem_keys_dictInsert {α β : Type} [DecidableEq α] {a k : α} (v : β)
    (l : List (α × β)) (h : a ∈ (dictInsert k v l).map Prod.fst) :
    a = k ∨ a ∈ l.map Prod.fst := by
  obtain ⟨p, hp, ha⟩ := List.mem_map.mp h
  rcases mem_dictInsert k v l hp with h2 | h2
  · exact Or.inl (by rw [← ha, h2])
  · exact Or.inr (ha ▸ List.mem_map_of_mem Prod.fst h2)

theorem dictKeysNodup_dictInsert {α β : Type} [DecidableEq α] (k : α) (v : β)
    (l : List (α × β)) (hnd : (l.map Prod.fst).Nodup) :
    ((dictInsert k v l).map Prod.fst).Nodup := by
  induction l with
  | nil => simp [dictInsert]
  | cons p rest ih =>
      rw [List.map_cons, List.nodup_cons] at hnd
      by_cases hp : p.1 = k
      · have hmap : (dictInsert k v (p :: rest)).map Prod.fst =
            k :: rest.map Prod.fst := by
          simp [dictInsert, hp]
        rw [hmap, List.nodup_cons]
        exact ⟨hp ▸ hnd.1, hnd.2⟩
      · have hmap : (dictInsert k v (p :: rest)).map Prod.fst =
            p.1 :: (dictInsert k v rest).map Prod.fst := by
          simp [dictInsert, hp]
        rw [hmap, List.nodup_cons]
        refine ⟨fun hmem => ?_, ih hnd.2⟩
        rcases mem_keys_dictInsert v rest hmem with h2 | h2
        · exact hp h2
        · exact hnd.1 h2

theorem mem_dictInsert_nodup {α β : Type} [DecidableEq α] {p : α × β} (k : α)
    (v : β) (l : List (α × β)) (hnd : (l.map Prod.fst).Nodup)
    (h : p ∈ dictInsert k v l) : p = (k, v) ∨ (p ∈ l ∧ p.1 ≠ k) := by
  induction l with
  | nil => simp [dictInsert] at h; exact Or.inl h
  | cons q rest ih =>
      rw [List.map_cons, List.nodup_cons] at hnd
      by_cases hq : q.1 = k
      · simp only [dictInsert, hq, if_true, List.mem_cons] at h
        rcases h with h | h
        · exact Or.inl h
        · refine Or.inr ⟨List.mem_cons_of_mem q h, fun hk => ?_⟩
          exact (hq ▸ hnd.1) (hk ▸ List.mem_map_of_mem Prod.fst h)
      · simp only [dictInsert, hq, if_false, List.mem_cons] at h
        rcases h with h | h
        · exact Or.inr ⟨h ▸ List.mem_cons_self q rest, h ▸ hq⟩
        · rcases ih hnd.2 h with h2 | h2
          · exact Or.inl h2
          · exact Or.inr ⟨List.mem_cons_of_mem q h2.1, h2.2⟩

theorem dictLookup_not_mem {α β : Type} [DecidableEq α] (k : α)
    (l : List (α × β)) (h : k ∉ l.map Prod.fst) : dictLookup k l = none := by
  induction l with
  | nil => rfl
  | cons p rest ih =>
      simp only [List.map_cons, List.mem_cons] at h
      push_neg at h
      have hp : ¬ p.1 = k := fun he => h.1 he.symm
      simp [dictLookup, hp, ih h.2]

theorem dictLookup_dictErase_self {α β : Type} [DecidableEq α] (k : α)
    (l : List (α × β)) (hnd : (l.map Prod.fst).Nodup) :
    dictLookup k (dictErase k l) = none := by
  induction l with
  | nil => rfl
  | cons p rest ih =>
      rw [List.map_cons, List.nodup_cons] at hnd
      by_cases hp : p.1 = k
      · simp only [dictErase, hp, if_true]
        exact dictLookup_not_mem k rest (hp ▸ hnd.1)
      · simp [dictErase, dictLookup, hp, ih hnd.2]

/-! ### Notify-loop lemmas -/

theorem notifyAux_cons_dead (live : Obj → Bool)
    (beh : Invocation → Except PyError Unit) (p : Obj × CallbackArgs)
    (rest : List (Obj × CallbackArgs)) (ea : Kwargs) (h : live p.1 = false) :
    notifyAux live beh (p :: rest) ea = notifyAux live beh rest ea := by
  simp [notifyAux, h]

theorem notifyAux_cons_live (live : Obj → Bool)
    (beh : Invocation → Except PyError Unit) (p : Obj × CallbackArgs)
    (rest : List (Obj × CallbackArgs)) (ea : Kwargs) (h : live p.1 = true) :
    notifyAux live beh (p :: rest) ea =
      match derefWeakMethod live p.2.callback with
      | none => ([], some .typeError)
      | some m =>
          match mergeKwargs ea p.2.kwargs with
          | .error e => ([], some e)
          | .ok args =>
              match beh ⟨m.self, m.method, args⟩ with
              | .error e => ([⟨m.self, m.method, args⟩], some e)
              | .ok _ =>
                  (⟨m.self, m.method, args⟩ ::
                     (notifyAux live beh rest ea).1,
                   (notifyAux live beh rest ea).2) := by
  simp [notifyAux, h]

theorem notifyAux_filter_live (live : Obj → Bool)
    (beh : Invocation → Except PyError Unit)
    (l : List (Obj × CallbackArgs)) (ea : Kwargs) :
    notifyAux live beh (l.filter (fun p => live p.1)) ea =
      notifyAux live beh l ea := by
  induction l with
  | nil => rfl
  | cons p rest ih =>
      cases hl : live p.1 with
      | false =>
          rw [notifyAux_cons_dead live beh p rest ea hl, ← ih]
          simp [List.filter_cons, hl]
      | true =>
          have hfc : (p :: rest).filter (fun p => live p.1) =
              p :: rest.filter (fun p => live p.1) := by
            simp [List.filter_cons, hl]
          rw [hfc, notifyAux_cons_live live beh p _ ea hl,
            notifyAux_cons_live live beh p rest ea hl, ih]

theorem notifyAux_all_ok (live : Obj → Bool)
    (beh : Invocation → Except PyError Unit)
    (l : List (Obj × CallbackArgs)) (ea : Kwargs)
    (hwf : ∀ p ∈ l, p.2.callback.self = p.1)
    (hd : ∀ p ∈ l, live p.1 = true → keysDisjoint ea p.2.kwargs = true)
    (hb : ∀ inv, beh inv = .ok ()) :
    notifyAux live beh l ea =
      ((l.filter (fun p => live p.1)).map (invOf ea), none) := by
  induction l with
  | nil => rfl
  | cons p rest ih =>
      have hwfp := hwf p (List.mem_cons_self p rest)
      have ihr := ih (fun q hq => hwf q (List.mem_cons_of_mem p hq))
        (fun q hq => hd q (List.mem_cons_of_mem p hq))
      cases hl : live p.1 with
      | false =>
          rw [notifyAux_cons_dead live beh p rest ea hl, ihr]
          simp [List.filter_cons, hl]
      | true =>
          have hdp := hd p (List.mem_cons_self p rest) hl
          rw [notifyAux_cons_live live beh p rest ea hl]
          simp [derefWeakMethod, hwfp, hl, mergeKwargs, hdp, hb, ihr,
            List.filter_cons, invOf]

theorem notifyAux_cons_derefNone (live : Obj → Bool)
    (beh : Invocation → Except PyError Unit) (p : Obj × CallbackArgs)
    (rest : List (Obj × CallbackArgs)) (ea : Kwargs) (hl : live p.1 = true)
    (hder : derefWeakMethod live p.2.callback = none) :
    notifyAux live beh (p :: rest) ea = ([], some .typeError) := by
  simp [notifyAux, hl, hder]

theorem notifyAux_cons_mergeError (live : Obj → Bool)
    (beh : Invocation → Except PyError Unit) (p : Obj × CallbackArgs)
    (rest : List (Obj × CallbackArgs)) (ea : Kwargs) (m : BoundMethod)
    (e : PyError) (hl : live p.1 = true)
    (hder : derefWeakMethod live p.2.callback = some m)
    (hm : mergeKwargs ea p.2.kwargs = .error e) :
    notifyAux live beh (p :: rest) ea = ([], some e) := by
  simp [notifyAux, hl, hder, hm]

theorem notifyAux_cons_behError (live : Obj → Bool)
    (beh : Invocation → Except PyError Unit) (p : Obj × CallbackArgs)
    (rest : List (Obj × CallbackArgs)) (ea : Kwargs) (m : BoundMethod)
    (args : Kwargs) (e : PyError) (hl : live p.1 = true)
    (hder : derefWeakMethod live p.2.callback = some m)
    (hm : mergeKwargs ea p.2.kwargs = .ok args)
    (hbeh : beh ⟨m.self, m.method, args⟩ = .error e) :
    notifyAux live beh (p :: rest) ea = ([⟨m.self, m.method, args⟩], some e) := by
  simp [notifyAux, hl, hder, hm, hbeh]

theorem notifyAux_cons_behOk (live : Obj → Bool)
    (beh : Invocation → Except PyError Unit) (p : Obj × CallbackArgs)
    (rest : List (Obj × CallbackArgs)) (ea : Kwargs) (m : BoundMethod)
    (args : Kwargs) (hl : live p.1 = true)
    (hder : derefWeakMethod live p.2.callback = some m)
    (hm : mergeKwargs ea p.2.kwargs = .ok args)
    (hbeh : beh ⟨m.self, m.method, args⟩ = .ok ()) :
    notifyAux live beh (p :: rest) ea =
      (⟨m.self, m.method, args⟩ :: (notifyAux live beh rest ea).1,
       (notifyAux live beh rest ea).2) := by
  simp [notifyAux, hl, hder, hm, hbeh]

theorem notifyAux_append_ok (live : Obj → Bool)
    (beh : Invocation → Except PyError Unit)
    (l1 l2 : List (Obj × CallbackArgs)) (ea : Kwargs) (tr1 : List Invocation)
    (h : notifyAux live beh l1 ea = (tr1, none)) :
    notifyAux live beh (l1 ++ l2) ea =
      (tr1 ++ (notifyAux live beh l2 ea).1, (notifyAux live beh l2 ea).2) := by
  induction l1 generalizing tr1 with
  | nil =>
      have h1 : tr1 = [] := by
        rw [show notifyAux live beh ([] : List (Obj × CallbackArgs)) ea =
          ([], none) from rfl] at h
        injection h with ha hb2
        exact ha.symm
      subst h1
      simp
  | cons p rest ih =>
      cases hl : live p.1 with
      | false =>
          rw [List.cons_append, notifyAux_cons_dead live beh p _ ea hl]
          rw [notifyAux_cons_dead live beh p rest ea hl] at h
          exact ih tr1 h
      | true =>
          cases hder : derefWeakMethod live p.2.callback with
          | none =>
              rw [notifyAux_cons_derefNone live beh p rest ea hl hder] at h
              simp at h
          | some m =>
              cases hm : mergeKwargs ea p.2.kwargs with
              | error e =>
                  rw [notifyAux_cons_mergeError live beh p rest ea m e hl hder
                    hm] at h
                  simp at h
              | ok args =>
                  cases hbeh : beh ⟨m.self, m.method, args⟩ with
                  | error e =>
                      rw [notifyAux_cons_behError live beh p rest ea m args e hl
                        hder hm hbeh] at h
                      simp at h
                  | ok u =>
                      cases u
                      rw [notifyAux_cons_behOk live beh p rest ea m args hl hder
                        hm hbeh] at h
                      rw [List.cons_append, notifyAux_cons_behOk live beh p
                        (rest ++ l2) ea m args hl hder hm hbeh]
                      rw [Prod.mk.injEq] at h
                      obtain ⟨h1, h2⟩ := h
                      have hr : notifyAux live beh rest ea =
                          ((notifyAux live beh rest ea).1, none) := by
                        rw [← h2]
                      rw [ih _ hr, ← h1]
                      simp

theorem trace_filter_target (live : Obj → Bool) (ea : Kwargs) (o : Obj)
    (l : List (Obj × CallbackArgs))
    (hwf : ∀ p ∈ l, p.2.callback.self = p.1) :
    ((l.filter (fun p => live p.1)).map (invOf ea)).filter
        (fun inv => inv.target == o) =
      (l.filter (fun p => live p.1 && p.1 == o)).map (invOf ea) := by
  induction l with
  | nil => rfl
  | cons p rest ih =>
      have hwfp := hwf p (List.mem_cons_self p rest)
      have ihr := ih (fun q hq => hwf q (List.mem_cons_of_mem p hq))
      cases hl : live p.1 with
      | false => simp [List.filter_cons, hl, ihr]
      | true =>
          by_cases ho : p.1 = o
          · subst ho
            simp [List.filter_cons, hl, invOf, hwfp, ihr]
          · simp [List.filter_cons, hl, invOf, hwfp, ho, ihr]

theorem filter_live_key_none (live : Obj → Bool) (o : Obj)
    (l : List (Obj × CallbackArgs)) (h : ∀ p ∈ l, p.1 ≠ o) :
    l.filter (fun p => live p.1 && p.1 == o) = [] := by
  induction l with
  | nil => rfl
  | cons p rest ih =>
      have hp := h p (List.mem_cons_self p rest)
      simp [List.filter_cons, hp,
        ih (fun r hr => h r (List.mem_cons_of_mem p hr))]

theorem filter_live_key_dictInsert (live : Obj → Bool) (o : Obj)
    (v : CallbackArgs) (l : List (Obj × CallbackArgs))
    (hnd : (l.map Prod.fst).Nodup) (hlive : live o = true) :
    (dictInsert o v l).filter (fun p => live p.1 && p.1 == o) = [(o, v)] := by
  induction l with
  | nil => simp [dictInsert, hlive]
  | cons p rest ih =>
      rw [List.map_cons, List.nodup_cons] at hnd
      by_cases hp : p.1 = o
      · have hrest : ∀ q ∈ rest, q.1 ≠ o := by
          intro q hq he
          exact (hp ▸ hnd.1) (he ▸ List.mem_map_of_mem Prod.fst hq)
        simp [dictInsert, hp, List.filter_cons, hlive,
          filter_live_key_none live o rest hrest]
      · simp [dictInsert, hp, List.filter_cons, ih hnd.2]

/-- Core behaviour of `notify` right after an `add_observer` that stored
`(m, kw)`: when nothing else goes wrong, no error escapes, and the owner
`m.self` receives exactly one invocation, carrying the merged kwargs. -/
theorem notify_dictInsert_core (live : Obj → Bool)
    (beh : Invocation → Except PyError Unit) (ea : Kwargs) (m : BoundMethod)
    (kw : Kwargs) (l : List (Obj × CallbackArgs))
    (hnd : (l.map Prod.fst).Nodup)
    (hwf : ∀ p ∈ l, p.2.callback.self = p.1)
    (hlive : live m.self = true) (hd : keysDisjoint ea kw = true)
    (hothers : ∀ p ∈ l, p.1 ≠ m.self → live p.1 = true →
      keysDisjoint ea p.2.kwargs = true)
    (hb : ∀ inv, beh inv = .ok ()) :
    (notifyAux live beh (dictInsert m.self ⟨m, kw⟩ l) ea).2 = none ∧
    (notifyAux live beh (dictInsert m.self ⟨m, kw⟩ l) ea).1.filter
        (fun inv => inv.target == m.self) = [⟨m.self, m.method, ea ++ kw⟩] := by
  have hwf2 : ∀ p ∈ dictInsert m.self ⟨m, kw⟩ l, p.2.callback.self = p.1 := by
    intro p hp
    rcases mem_dictInsert _ _ _ hp with h2 | h2
    · rw [h2]
    · exact hwf p h2
  have hd2 : ∀ p ∈ dictInsert m.self ⟨m, kw⟩ l, live p.1 = true →
      keysDisjoint ea p.2.kwargs = true := by
    intro p hp hpl
    rcases mem_dictInsert_nodup _ _ _ hnd hp with h2 | h2
    · rw [h2]; exact hd
    · exact hothers p h2.1 h2.2 hpl
  have hmain := notifyAux_all_ok live beh (dictInsert m.self ⟨m, kw⟩ l) ea
    hwf2 hd2 hb
  refine ⟨by rw [hmain], ?_⟩
  rw [hmain]
  rw [trace_filter_target live ea m.self (dictInsert m.self ⟨m, kw⟩ l) hwf2]
  rw [filter_live_key_dictInsert live m.self ⟨m, kw⟩ l hnd hlive]
  simp [invOf]

/-! ### Observable-level lemmas -/

theorem getObserverList_of_some (ob : Observable) (e : Event)
    (ol : ObserverList) (h : ob.lookupList e = some ol) :
    ob.getObserverList e = (ol, ob) := by
  simp [Observable.getObserverList, Observable.lookupList] at h ⊢
  rw [h]

theorem getObserverList_of_none (ob : Observable) (e : Event)
    (h : ob.lookupList e = none) :
    ob.getObserverList e =
      (⟨[]⟩, ⟨dictInsert e ⟨[]⟩ ob.observer_lists⟩) := by
  simp [Observable.getObserverList, Observable.lookupList] at h ⊢
  rw [h]

theorem lookupList_setList_self (ob : Observable) (e : Event)
    (ol : ObserverList) : (ob.setList e ol).lookupList e = some ol := by
  simp [Observable.setList, Observable.lookupList, dictLookup_dictInsert_self]

theorem lookupList_setList_ne (ob : Observable) (e a : Event)
    (ol : ObserverList) (h : e ≠ a) :
    (ob.setList e ol).lookupList a = ob.lookupList a := by
  simp [Observable.setList, Observable.lookupList,
    dictLookup_dictInsert_ne e a ol ob.observer_lists h]

/-- The trace and error of `Observable.notify` are those of
`ObserverList.notify` on the event's list, an empty one if unseen. -/
theorem notify_result_eq_lookup (live : Obj → Bool)
    (beh : Invocation → Except PyError Unit) (ob : Observable) (e : Event)
    (ea : Kwargs) :
    (Observable.notify live beh ob e ea).2 =
      ObserverList.notify live beh ((ob.lookupList e).getD ⟨[]⟩) ea := by
  unfold Observable.notify
  cases h : ob.lookupList e with
  | none => rw [getObserverList_of_none ob e h]; rfl
  | some ol => rw [getObserverList_of_some ob e ol h]; rfl

/-- `Observable.add_observer` on a bound method: the registered event's
list gains the entry, the result is the owner id. -/
theorem add_observer_unfold (ob : Observable) (e : Event) (cb : Callable)
    (kw : Kwargs) :
    Observable.add_observer ob e cb kw =
      ((ob.getObserverList e).2.setList e
        ((ob.getObserverList e).1.add_observer cb kw).1,
       ((ob.getObserverList e).1.add_observer cb kw).2) := rfl

/-! ### Claim theorems -/

/-- C10: `add_observer` requires a bound method; a plain callable (no
`__self__`) raises `AttributeError` before any state change, leaving the
observer mapping unchanged. -/
theorem spec_C10 (ol : ObserverList) (f : Nat) (kw : Kwargs) :
    ol.add_observer (.plain f) kw =
      (ol, .error (.attributeError "__self__")) := rfl

/-- C9: when the call-time event args and a live registration's stored
kwargs share a key, reaching that registration in `notify` raises
`TypeError` deterministically (no invocation happens, no value silently
overrides the other). -/
theorem spec_C9 (live : Obj → Bool) (beh : Invocation → Except PyError Unit)
    (o : Obj) (cb : CallbackArgs) (rest : List (Obj × CallbackArgs))
    (ea : Kwargs) (hlive : live o = true) (hwf : cb.callback.self = o)
    (hdup : keysDisjoint ea cb.kwargs = false) :
    ObserverList.notify live beh ⟨(o, cb) :: rest⟩ ea =
      ([], some .typeError) := by
  have hder : derefWeakMethod live cb.callback = some cb.callback := by
    simp [derefWeakMethod, hwf, hlive]
  have hm : mergeKwargs ea cb.kwargs = .error .typeError := by
    simp [mergeKwargs, hdup]
  exact notifyAux_cons_mergeError live beh (o, cb) rest ea cb.callback
    .typeError hlive hder hm

theorem spec_C9_witness :
    ObserverList.notify (fun _ => true) (fun _ => .ok ())
      ⟨[(1, ⟨⟨1, 2⟩, [("a", 1)]⟩)]⟩ [("a", 2)] = ([], some .typeError) :=
  spec_C9 (fun _ => true) (fun _ => .ok ()) 1 ⟨⟨1, 2⟩, [("a", 1)]⟩ []
    [("a", 2)] rfl rfl (by decide)

/-- C5: an exception raised by a callback propagates unmodified out of
`notify`, and delivery to the observers not yet notified in that call is
aborted: the trace ends at the raising callback, entries after it are
never invoked. -/
theorem spec_C5 (live : Obj → Bool) (beh : Invocation → Except PyError Unit)
    (l1 l2 : List (Obj × CallbackArgs)) (o : Obj) (cb : CallbackArgs)
    (ea args : Kwargs) (e : PyError) (tr1 : List Invocation)
    (h1 : notifyAux live beh l1 ea = (tr1, none))
    (hlive : live o = true) (hwf : cb.callback.self = o)
    (hm : mergeKwargs ea cb.kwargs = .ok args)
    (hbeh : beh ⟨o, cb.callback.method, args⟩ = .error e) :
    ObserverList.notify live beh ⟨l1 ++ (o, cb) :: l2⟩ ea =
      (tr1 ++ [⟨o, cb.callback.method, args⟩], some e) := by
  have hder : derefWeakMethod live cb.callback = some cb.callback := by
    simp [derefWeakMethod, hwf, hlive]
  have hbeh2 : beh ⟨cb.callback.self, cb.callback.method, args⟩ = .error e := by
    rw [hwf]; exact hbeh
  show notifyAux live beh (l1 ++ (o, cb) :: l2) ea = _
  rw [notifyAux_append_ok live beh l1 ((o, cb) :: l2) ea tr1 h1,
    notifyAux_cons_behError live beh (o, cb) l2 ea cb.callback args e hlive
      hder hm hbeh2]
  simp [hwf]

theorem spec_C5_witness :
    ObserverList.notify (fun _ => true) (fun _ => .error (.callbackError 7))
      ⟨[(1, ⟨⟨1, 2⟩, []⟩), (4, ⟨⟨4, 5⟩, []⟩)]⟩ [] =
      ([⟨1, 2, []⟩], some (.callbackError 7)) :=
  spec_C5 (fun _ => true) (fun _ => .error (.callbackError 7)) []
    [(4, ⟨⟨4, 5⟩, []⟩)] 1 ⟨⟨1, 2⟩, []⟩ [] [] (.callbackError 7) [] rfl rfl
    rfl rfl rfl

/-- C3: `remove_observer` raises the plain unknown-callback
`RuntimeError` exactly when the id has no registration in the weak
dictionary (never registered, already removed, or auto-pruned — pruned
entries are gone from the dictionary); and `Observable.remove_observer`
on a never-seen event lazily creates the empty list and raises the same
unknown-callback error, not a distinct unknown-event error. -/
theorem spec_C3 (ol : ObserverList) (id : Obj) (ob : Observable) (e : Event)
    (id2 : Obj) (hev : ob.lookupList e = none) :
    ((ol.remove_observer id).2 =
        some (.runtimeError "Unknown callback ID") ↔
      dictLookup id ol.observers = none) ∧
    (ob.remove_observer e id2).2 =
      some (.runtimeError "Unknown callback ID") := by
  constructor
  · unfold ObserverList.remove_observer
    cases h : dictLookup id ol.observers <;> simp [h]
  · simp [Observable.remove_observer, getObserverList_of_none ob e hev,
      ObserverList.remove_observer, dictLookup]

theorem spec_C3_witness :
    (((ObserverList.mk []).remove_observer 5).2 =
        some (.runtimeError "Unknown callback ID") ↔
      dictLookup 5 (ObserverList.mk []).observers = none) ∧
    ((Observable.mk []).remove_observer "tick" 5).2 =
      some (.runtimeError "Unknown callback ID") :=
  spec_C3 ⟨[]⟩ 5 ⟨[]⟩ "tick" 5 rfl

/-- C6: `add_observer` with a bound method returns the owner object as
the callback id, and that id can be handed to `remove_observer`, which
succeeds and deletes the registration. -/
theorem spec_C6 (ol : ObserverList) (m : BoundMethod) (kw : Kwargs)
    (hnd : dictKeysNodup ol.observers) :
    (ol.add_observer (.bound m) kw).2 = .ok m.self ∧
    ((ol.add_observer (.bound m) kw).1.remove_observer m.self).2 = none ∧
    dictLookup m.self
      (((ol.add_observer (.bound m) kw).1.remove_observer
        m.self).1.observers) = none := by
  have hlook : dictLookup m.self (dictInsert m.self ⟨m, kw⟩ ol.observers) =
      some ⟨m, kw⟩ := dictLookup_dictInsert_self m.self ⟨m, kw⟩ ol.observers
  refine ⟨rfl, ?_, ?_⟩
  · simp [ObserverList.add_observer, ObserverList.remove_observer, hlook]
  · simp [ObserverList.add_observer, ObserverList.remove_observer, hlook]
    exact dictLookup_dictErase_self m.self _
      (dictKeysNodup_dictInsert m.self ⟨m, kw⟩ ol.observers hnd)

theorem spec_C6_witness :
    ((ObserverList.mk []).add_observer (.bound ⟨1, 2⟩) [("a", 3)]).2 =
      .ok 1 ∧
    (((ObserverList.mk []).add_observer
        (.bound ⟨1, 2⟩) [("a", 3)]).1.remove_observer 1).2 = none ∧
    dictLookup 1
      ((((ObserverList.mk []).add_observer
        (.bound ⟨1, 2⟩) [("a", 3)]).1.remove_observer 1).1.observers) =
      none :=
  spec_C6 ⟨[]⟩ ⟨1, 2⟩ [("a", 3)] (by simp [dictKeysNodup])

/-- C2: `notify` treats registrations whose weak reference has expired
as absent — they are skipped (not invoked, no error for them): the
result equals the result on the pruned list — and `notify` itself does
not erase them: the Observable state it returns is unchanged, still
holding the dead entries; removal belongs to the weak-reference
mechanism (`prune`), not to `notify`. -/
theorem spec_C2 (ob : Observable) (e : Event) (ol : ObserverList)
    (live : Obj → Bool) (beh : Invocation → Except PyError Unit)
    (ea : Kwargs) (h : ob.lookupList e = some ol) :
    Observable.notify live beh ob e ea =
      (ob, ObserverList.notify live beh (ol.prune live) ea) := by
  have hset : ob.setList e ol = ob := by
    unfold Observable.setList
    have hins := dictInsert_lookup_eq e ol ob.observer_lists h
    cases ob
    simp only at hins
    simp [hins]
  have hnp : ObserverList.notify live beh (ol.prune live) ea =
      ObserverList.notify live beh ol ea := by
    unfold ObserverList.notify ObserverList.prune
    exact notifyAux_filter_live live beh ol.observers ea
  unfold Observable.notify
  rw [getObserverList_of_some ob e ol h, hnp]
  show (ob.setList e ol, ObserverList.notify live beh ol ea) =
    (ob, ObserverList.notify live beh ol ea)
  rw [hset]

theorem spec_C2_witness :
    Observable.notify (fun _ => false) (fun _ => .ok ())
      (Observable.mk [("tick", ⟨[(3, ⟨⟨3, 1⟩, []⟩)]⟩)]) "tick" [] =
      (Observable.mk [("tick", ⟨[(3, ⟨⟨3, 1⟩, []⟩)]⟩)],
       ObserverList.notify (fun _ => false) (fun _ => .ok ())
         ((ObserverList.mk [(3, ⟨⟨3, 1⟩, []⟩)]).prune (fun _ => false)) []) :=
  spec_C2 ⟨[("tick", ⟨[(3, ⟨⟨3, 1⟩, []⟩)]⟩)]⟩ "tick" ⟨[(3, ⟨⟨3, 1⟩, []⟩)]⟩
    (fun _ => false) (fun _ => .ok ()) [] (by decide)

/-- C7: `notify` on an event with zero registered observers — including
an event this Observable has never seen — is a no-op raising no error:
it lazily creates an empty `ObserverList` if absent and invokes zero
callbacks. -/
theorem spec_C7 (ob : Observable) (live : Obj → Bool)
    (beh : Invocation → Except PyError Unit) (e : Event) (ea : Kwargs)
    (h : ∀ ol, ob.lookupList e = some ol → ol = ⟨[]⟩) :
    (Observable.notify live beh ob e ea).2 = ([], none) ∧
    (Observable.notify live beh ob e ea).1.lookupList e = some ⟨[]⟩ := by
  unfold Observable.notify
  cases hl : ob.lookupList e with
  | none =>
      rw [getObserverList_of_none ob e hl]
      exact ⟨rfl, lookupList_setList_self
        ⟨dictInsert e ⟨[]⟩ ob.observer_lists⟩ e ⟨[]⟩⟩
  | some ol =>
      have hol := h ol hl
      subst hol
      rw [getObserverList_of_some ob e ⟨[]⟩ hl]
      exact ⟨rfl, lookupList_setList_self ob e ⟨[]⟩⟩

theorem spec_C7_witness :
    (Observable.notify (fun _ => true) (fun _ => .ok ())
      (Observable.mk []) "tick" [("count", 5)]).2 = ([], none) ∧
    (Observable.notify (fun _ => true) (fun _ => .ok ())
      (Observable.mk []) "tick" [("count", 5)]).1.lookupList "tick" =
      some ⟨[]⟩ :=
  spec_C7 ⟨[]⟩ (fun _ => true) (fun _ => .ok ()) "tick" [("count", 5)]
    (fun ol hol => by simp [Observable.lookupList, dictLookup] at hol)

/-- C8: distinct events have independent observer sets: `add_observer`
for event `A` leaves the `ObserverList` of any `B ≠ A` unchanged, and
the invocations and error of `notify` on `B` are unchanged as well (a
callback registered only for `A` never fires on `notify B`). -/
theorem spec_C8 (ob : Observable) (A B : Event) (cb : Callable)
    (kw ea : Kwargs) (live : Obj → Bool)
    (beh : Invocation → Except PyError Unit) (hne : A ≠ B) :
    ((Observable.add_observer ob A cb kw).1.lookupList B =
      ob.lookupList B) ∧
    ((Observable.add_observer ob A cb kw).1.notify live beh B ea).2 =
      (Observable.notify live beh ob B ea).2 := by
  have h1 : (Observable.add_observer ob A cb kw).1.lookupList B =
      ob.lookupList B := by
    show ((ob.getObserverList A).2.setList A
        ((ob.getObserverList A).1.add_observer cb kw).1).lookupList B =
      ob.lookupList B
    rw [lookupList_setList_ne _ A B _ hne]
    cases hA : ob.lookupList A with
    | some olA => rw [getObserverList_of_some ob A olA hA]
    | none =>
        rw [getObserverList_of_none ob A hA]
        simp [Observable.lookupList,
          dictLookup_dictInsert_ne A B _ ob.observer_lists hne]
  refine ⟨h1, ?_⟩
  rw [notify_result_eq_lookup, notify_result_eq_lookup, h1]

theorem spec_C8_witness :
    ((Observable.add_observer (Observable.mk []) "A"
        (.bound ⟨1, 2⟩) []).1.lookupList "B" =
      (Observable.mk []).lookupList "B") ∧
    ((Observable.add_observer (Observable.mk []) "A"
        (.bound ⟨1, 2⟩) []).1.notify (fun _ => true) (fun _ => .ok ())
        "B" []).2 =
      (Observable.notify (fun _ => true) (fun _ => .ok ())
        (Observable.mk []) "B" []).2 :=
  spec_C8 ⟨[]⟩ "A" "B" (.bound ⟨1, 2⟩) [] [] (fun _ => true)
    (fun _ => .ok ()) (by decide)

/-- C4: at most one registration per owner and event: a second
`add_observer` for the same owner silently overwrites the first — the
resulting dictionary is the one the second call alone would have
produced — so on a subsequent `notify` only the second callback fires
for that owner, with the second registration's kwargs. -/
theorem spec_C4 (ol : ObserverList) (m1 m2 : BoundMethod)
    (kw1 kw2 ea : Kwargs) (live : Obj → Bool)
    (beh : Invocation → Except PyError Unit) (hsame : m1.self = m2.self)
    (hnd : dictKeysNodup ol.observers) (hwf : ol.WF)
    (hlive : live m2.self = true) (hd2 : keysDisjoint ea kw2 = true)
    (hothers : ∀ p ∈ ol.observers, p.1 ≠ m2.self → live p.1 = true →
      keysDisjoint ea p.2.kwargs = true)
    (hb : ∀ inv, beh inv = .ok ()) :
    ((ol.add_observer (.bound m1) kw1).1.add_observer
        (.bound m2) kw2).1 =
      (ol.add_observer (.bound m2) kw2).1 ∧
    (ObserverList.notify live beh
        ((ol.add_observer (.bound m1) kw1).1.add_observer
          (.bound m2) kw2).1 ea).1.filter
        (fun inv => inv.target == m2.self) =
      [⟨m2.self, m2.method, ea ++ kw2⟩] := by
  have hstate : ((ol.add_observer (.bound m1) kw1).1.add_observer
      (.bound m2) kw2).1 = (ol.add_observer (.bound m2) kw2).1 := by
    show (⟨dictInsert m2.self ⟨m2, kw2⟩
        (dictInsert m1.self ⟨m1, kw1⟩ ol.observers)⟩ : ObserverList) =
      ⟨dictInsert m2.self ⟨m2, kw2⟩ ol.observers⟩
    rw [← hsame, dictInsert_dictInsert_self]
  have hcore := notify_dictInsert_core live beh ea m2 kw2 ol.observers hnd
    hwf hlive hd2 hothers hb
  refine ⟨hstate, ?_⟩
  rw [hstate]
  exact hcore.2

theorem spec_C4_witness :
    (((ObserverList.mk []).add_observer
        (.bound ⟨1, 2⟩) [("a", 1)]).1.add_observer
        (.bound ⟨1, 3⟩) [("b", 2)]).1 =
      ((ObserverList.mk []).add_observer (.bound ⟨1, 3⟩) [("b", 2)]).1 ∧
    (ObserverList.notify (fun _ => true) (fun _ => .ok ())
        (((ObserverList.mk []).add_observer
          (.bound ⟨1, 2⟩) [("a", 1)]).1.add_observer
          (.bound ⟨1, 3⟩) [("b", 2)]).1 [("count", 5)]).1.filter
        (fun inv => inv.target == 1) =
      [⟨1, 3, [("count", 5)] ++ [("b", 2)]⟩] :=
  spec_C4 ⟨[]⟩ ⟨1, 2⟩ ⟨1, 3⟩ [("a", 1)] [("b", 2)] [("count", 5)]
    (fun _ => true) (fun _ => .ok ()) rfl (by simp [dictKeysNodup])
    (by decide) rfl (by decide) (by decide) (fun _ => rfl)

/-- C1: an `Observable.add_observer(event, cb, **kw)` immediately
followed by `Observable.notify(event, **args)` — the owner (= callback
target) reachable and `kw` disjoint from `args`, nothing else failing —
registers under the owner id, raises no error, and invokes the callback
exactly once, with the union of the call-time args and the
registration-time kwargs. -/
theorem spec_C1 (ob : Observable) (live : Obj → Bool)
    (beh : Invocation → Except PyError Unit) (e : Event) (m : BoundMethod)
    (kw ea : Kwargs)
    (hnd : dictKeysNodup (ob.getObserverList e).1.observers)
    (hwf : (ob.getObserverList e).1.WF)
    (hlive : live m.self = true)
    (hdisj : keysDisjoint ea kw = true)
    (hothers : ∀ p ∈ (ob.getObserverList e).1.observers, p.1 ≠ m.self →
      live p.1 = true → keysDisjoint ea p.2.kwargs = true)
    (hb : ∀ inv, beh inv = .ok ()) :
    (Observable.add_observer ob e (.bound m) kw).2 = .ok m.self ∧
    ((Observable.add_observer ob e (.bound m) kw).1.notify live beh e
      ea).2.2 = none ∧
    ((Observable.add_observer ob e (.bound m) kw).1.notify live beh e
        ea).2.1.filter (fun inv => inv.target == m.self) =
      [⟨m.self, m.method, ea ++ kw⟩] := by
  have hlook : (Observable.add_observer ob e (.bound m) kw).1.lookupList e =
      some ⟨dictInsert m.self ⟨m, kw⟩ (ob.getObserverList e).1.observers⟩ := by
    show ((ob.getObserverList e).2.setList e
        ((ob.getObserverList e).1.add_observer (.bound m) kw).1).lookupList
        e = _
    rw [lookupList_setList_self]
    rfl
  have h2 := notify_result_eq_lookup live beh
    (Observable.add_observer ob e (.bound m) kw).1 e ea
  rw [hlook] at h2
  have hcore := notify_dictInsert_core live beh ea m kw
    (ob.getObserverList e).1.observers hnd hwf hlive hdisj hothers hb
  refine ⟨rfl, ?_, ?_⟩
  · rw [show ((Observable.add_observer ob e (.bound m) kw).1.notify live
        beh e ea).2.2 =
      (((Observable.add_observer ob e (.bound m) kw).1.notify live beh e
        ea).2).2 from rfl, h2]
    exact hcore.1
  · rw [show ((Observable.add_observer ob e (.bound m) kw).1.notify live
        beh e ea).2.1 =
      (((Observable.add_observer ob e (.bound m) kw).1.notify live beh e
        ea).2).1 from rfl, h2]
    exact hcore.2

theorem spec_C1_witness :
    (Observable.add_observer (Observable.mk []) "tick"
        (.bound ⟨1, 2⟩) [("phase", 1)]).2 = .ok 1 ∧
    ((Observable.add_observer (Observable.mk []) "tick"
        (.bound ⟨1, 2⟩) [("phase", 1)]).1.notify (fun _ => true)
        (fun _ => .ok ()) "tick" [("count", 5)]).2.2 = none ∧
    ((Observable.add_observer (Observable.mk []) "tick"
        (.bound ⟨1, 2⟩) [("phase", 1)]).1.notify (fun _ => true)
        (fun _ => .ok ()) "tick" [("count", 5)]).2.1.filter
        (fun inv => inv.target == 1) =
      [⟨1, 2, [("count", 5)] ++ [("phase", 1)]⟩] :=
  spec_C1 ⟨[]⟩ (fun _ => true) (fun _ => .ok ()) "tick" ⟨1, 2⟩
    [("phase", 1)] [("count", 5)] (by unfold dictKeysNodup; decide) (by decide) rfl
    (by decide) (by decide) (fun _ => rfl)
